import Mathlib

/-!
A shallow embedding of `dweather_client/arithmetic.py` and proofs about its
four operations: `sum_period_rainfall`, `build_historical_rainfall_dict`,
`sum_period_df` and `avg_period_df`.

Modelling conventions:
* Python `datetime.date` becomes the `Date` structure below; `date.replace`
  validates the result and raises `ValueError` on an invalid date (the only
  way a year replacement of a valid date turns invalid is Feb 29 projected
  onto a non-leap year), embedded as `Except Err Date`.
* The two network fetches (`get_rainfall_dict`, `get_rev_rainfall_dict`) are
  external collaborators; their results (a date-keyed rainfall mapping, and
  for the revision-aware fetch additionally the `is_final` flag) are passed
  in as parameters `final_dict` / `prelim_dict` / `prelim_is_final`.
* Python floats carrying rainfall values are modelled as rationals `ℚ`;
  the truthiness test `if daily_cap:` on an optional float is false exactly
  for `None` and `0.0`, embedded as a `match`/`if c = 0` pair.
* A Python `dict` sorted by date is an association list `List (Date × ℚ)`;
  `list(d)[-1]` is `List.getLast?` (raising `IndexError`, i.e. failing, on
  an empty dict).
* Fallible code returns `Except Err _`; a raised exception is `.error _`,
  list comprehensions over fallible lookups become `mapE` (which stops at
  the first failure, as a Python loop raising does).
* The pandas frame of `sum_period_df`/`avg_period_df` is `DataFrame` below:
  a column schema plus date-indexed rows.  String-label slicing
  `df[left:right]` on a date index is inclusive filtering between the two
  parsed dates (pandas raises if a label does not parse as a date, embedded
  by validating the constructed dates).  `Series.sum()` of an empty slice
  is `0.0`; `Series.mean()` of an empty slice is NaN, modelled as `none`.
-/

/-- Error taxonomy: `invalidRange` for a backwards date range,
`invalidDate` for Python's `ValueError` from `date.replace`/date parsing,
`missingDate` for a `KeyError` on the rainfall dict, `missingColumn` for a
`KeyError` on a frame column, `emptySeries` for `IndexError` from
`list(d)[-1]` on an empty dict. -/
inductive Err where
  | invalidRange
  | invalidDate
  | missingDate
  | missingColumn
  | emptySeries
  deriving DecidableEq, Repr

/-- A calendar date, as Python's `datetime.date` (year `≥ 1`). -/
structure Date where
  year : Nat
  month : Nat
  day : Nat
  deriving DecidableEq, Repr

/-- Gregorian leap-year rule, as `calendar.isleap`. -/
def isLeapYear (y : Nat) : Bool :=
  y % 4 == 0 && (y % 100 != 0 || y % 400 == 0)

/-- Number of days of month `m` in year `y`. -/
def daysInMonth (y m : Nat) : Nat :=
  if m = 2 then (if isLeapYear y then 29 else 28)
  else if m = 4 ∨ m = 6 ∨ m = 9 ∨ m = 11 then 30
  else 31

/-- Validity of a (year, month, day) triple, as checked by the
`datetime.date` constructor (`MINYEAR = 1`). -/
def validDate (y m d : Nat) : Bool :=
  decide (1 ≤ y) && decide (1 ≤ m) && decide (m ≤ 12) &&
    decide (1 ≤ d) && decide (d ≤ daysInMonth y m)

/-- Construct a date, failing (Python `ValueError`) on an invalid triple.
A non-positive year also fails: its `toNat` is `0`, which `validDate`
rejects. -/
def mkDate (y : Int) (m d : Nat) : Except Err Date :=
  if validDate y.toNat m d then .ok ⟨y.toNat, m, d⟩ else .error .invalidDate

/-- Python's `date.replace(year=y)`: keep month/day, revalidate. -/
def Date.replaceYear (dt : Date) (y : Int) : Except Err Date :=
  mkDate y dt.month dt.day

/-- Chronological order on dates (lexicographic on year, month, day;
agrees with `datetime.date` order on valid dates). -/
def dateLE (a b : Date) : Bool :=
  decide (a.year < b.year) ||
    (a.year == b.year && (decide (a.month < b.month) ||
      (a.month == b.month && decide (a.day ≤ b.day))))

/-- Successor of a calendar date (`date + timedelta(days=1)`). -/
def nextDate (dt : Date) : Date :=
  if dt.day < daysInMonth dt.year dt.month then ⟨dt.year, dt.month, dt.day + 1⟩
  else if dt.month < 12 then ⟨dt.year, dt.month + 1, 1⟩
  else ⟨dt.year + 1, 1, 1⟩

/-- Days in year `y` strictly before month `m`. -/
def daysBeforeMonth (y m : Nat) : Nat :=
  ((List.range (m - 1)).map (fun i => daysInMonth y (i + 1))).sum

/-- Number of leap years in `[0, y)` (year 0 is a leap year in the
proleptic Gregorian calendar). -/
def leapsBelow : Nat → Nat
  | 0 => 0
  | y + 1 => y / 4 - y / 100 + y / 400 + 1

/-- Ordinal day count of a date (days from 0000-01-01 in the proleptic
Gregorian calendar); strictly monotone in chronological order. -/
def dayNumber (dt : Date) : Nat :=
  365 * dt.year + leapsBelow dt.year + daysBeforeMonth dt.year dt.month + (dt.day - 1)

/-- Iterate `nextDate` to list `n` consecutive dates starting at `dt`. -/
def listify_go : Nat → Date → List Date
  | 0, _ => []
  | n + 1, dt => dt :: listify_go n (nextDate dt)

/-- Modelled from the spec: `listify_period` is imported from
`dweather_client.utils`, which is not under `src/`.  Per §4.1
(DateRangeResolver) it produces every calendar date from `start_date` to
`end_date` inclusive in ascending order and fails with `InvalidRangeError`
when `end_date < start_date`. -/
def listify_period (start_date end_date : Date) : Except Err (List Date) :=
  if dayNumber end_date < dayNumber start_date then .error .invalidRange
  else .ok (listify_go (dayNumber end_date + 1 - dayNumber start_date) start_date)

/-- A fetched rainfall dict: a date-keyed association list, in the order
the Python `dict` holds its keys (date-ascending per the source comment). -/
abbrev Series := List (Date × ℚ)

/-- `rainfall_dict[date]`: `KeyError` becomes `.error .missingDate`. -/
def lookupD (dict : Series) (dt : Date) : Except Err ℚ :=
  match dict.find? (fun kv => decide (kv.1 = dt)) with
  | some kv => .ok kv.2
  | none => .error .missingDate

/-- `date in rainfall_dict`. -/
def hasKey (dict : Series) (dt : Date) : Bool :=
  dict.any (fun kv => decide (kv.1 = dt))

/-- A Python list comprehension whose body can raise: evaluate in order,
stopping at the first failure. -/
def mapE {α β : Type} (f : α → Except Err β) : List α → Except Err (List β)
  | [] => .ok []
  | x :: xs =>
    match f x with
    | .error err => .error err
    | .ok y =>
      match mapE f xs with
      | .error err => .error err
      | .ok ys => .ok (y :: ys)

/-- Lines 44–47 / 91–94 of `arithmetic.py`:
`if daily_cap: rain = [min(dict[date], daily_cap) for date in dates]`
`else: rain = [dict[date] for date in dates]`.
`if daily_cap:` is falsy for `None` and for `0.0`. -/
def rain_values (dict : Series) (dates : List Date) :
    Option ℚ → Except Err (List ℚ)
  | some c =>
    if c = 0 then mapE (fun dt => lookupD dict dt) dates
    else
      mapE (fun dt =>
        match lookupD dict dt with
        | .ok v => .ok (min v c)
        | .error err => .error err) dates
  | none => mapE (fun dt => lookupD dict dt) dates

/-- The `(sum(rain), len(rain))` reduction shared by both aggregation
operations. -/
def term_aggregate (dict : Series) (dates : List Date) (daily_cap : Option ℚ) :
    Except Err (ℚ × Nat) :=
  match rain_values dict dates daily_cap with
  | .error err => .error err
  | .ok rain => .ok (rain.sum, rain.length)

/-- Lines 39–40 / 78–79 of `arithmetic.py`:
`if not is_final and end_date not in rainfall_dict:`
`    end_date = list(rainfall_dict)[-1]`. -/
def truncated_end (dict : Series) (is_final : Bool) (end_date : Date) :
    Except Err Date :=
  if is_final = false ∧ hasKey dict end_date = false then
    match dict.getLast? with
    | some kv => .ok kv.1
    | none => .error .emptySeries
  else .ok end_date

/-- The shared prelude of both aggregation operations (lines 34–42 /
73–81): pick the preliminary fetch result and apply the truncation rule
when `use_prelim`, else the authoritative fetch with `is_final = True`.
Returns the dict to aggregate over, the `is_final` flag, and the effective
end date. -/
def resolve_series (final_dict prelim_dict : Series) (prelim_is_final : Bool)
    (end_date : Date) : Bool → Except Err (Series × Bool × Date)
  | true =>
    match truncated_end prelim_dict prelim_is_final end_date with
    | .error err => .error err
    | .ok e => .ok (prelim_dict, prelim_is_final, e)
  | false => .ok (final_dict, true, end_date)

/-- The tail of `sum_period_rainfall` after the series is resolved:
`dates = listify_period(start_date, end_date)`; cap-aware list
comprehension; `return (sum(rain), len(rain), is_final)`. -/
def term_result (dict : Series) (is_final : Bool) (start_date end_date : Date)
    (daily_cap : Option ℚ) : Except Err (ℚ × Nat × Bool) :=
  match listify_period start_date end_date with
  | .error err => .error err
  | .ok dates =>
    match term_aggregate dict dates daily_cap with
    | .error err => .error err
    | .ok tn => .ok (tn.1, tn.2, is_final)

/-- `sum_period_rainfall` (lines 13–48 of `arithmetic.py`), with the two
fetch results passed in. -/
def sum_period_rainfall (final_dict prelim_dict : Series) (prelim_is_final : Bool)
    (start_date end_date : Date) (daily_cap : Option ℚ) (use_prelim : Bool) :
    Except Err (ℚ × Nat × Bool) :=
  match resolve_series final_dict prelim_dict prelim_is_final end_date use_prelim with
  | .error err => .error err
  | .ok r => term_result r.1 r.2.1 start_date r.2.2 daily_cap

/-- `HISTORICAL_START_YEAR = 1981`, the Python default for `start_year`. -/
def HISTORICAL_START_YEAR : Nat := 1981

/-- `range(s, e + 1)`: the integers from `s` to `e` inclusive, ascending. -/
def natRange (s e : Nat) : List Nat :=
  (List.range (e + 1 - s)).map (fun k => s + k)

/-- One iteration of the year loop of `build_historical_rainfall_dict`
(lines 86–95): `historical_start = start_date.replace(year=year)`;
`historical_end = end_date.replace(year=year + (end_date.year - start_date.year))`;
`year_term = listify_period(historical_start, historical_end)`; cap-aware
comprehension; record `(sum, len)` under key `year`. -/
def year_entry (dict : Series) (start_date end_date : Date) (daily_cap : Option ℚ)
    (year : Nat) : Except Err (Nat × (ℚ × Nat)) :=
  match start_date.replaceYear (year : Int) with
  | .error err => .error err
  | .ok historical_start =>
    match end_date.replaceYear
        ((year : Int) + ((end_date.year : Int) - (start_date.year : Int))) with
    | .error err => .error err
    | .ok historical_end =>
      match listify_period historical_start historical_end with
      | .error err => .error err
      | .ok year_term =>
        match term_aggregate dict year_term daily_cap with
        | .error err => .error err
        | .ok tn => .ok (year, tn)

/-- The year loop of `build_historical_rainfall_dict` (lines 82–96) over a
resolved series: one `year_entry` per year in `[start_year, end_year]`,
returned with the overall `is_final` flag. -/
def build_core (dict : Series) (is_final : Bool) (start_date end_date : Date)
    (daily_cap : Option ℚ) (start_year end_year : Nat) :
    Except Err (List (Nat × (ℚ × Nat)) × Bool) :=
  match mapE (year_entry dict start_date end_date daily_cap) (natRange start_year end_year) with
  | .error err => .error err
  | .ok m => .ok (m, is_final)

/-- `build_historical_rainfall_dict` (lines 50–96 of `arithmetic.py`), with
the two fetch results passed in.  `end_year = None` defaults to
`start_date.year` (line 83–85). -/
def build_historical_rainfall_dict (final_dict prelim_dict : Series)
    (prelim_is_final : Bool) (start_date end_date : Date) (daily_cap : Option ℚ)
    (start_year : Nat) (end_year : Option Nat) (use_prelim : Bool) :
    Except Err (List (Nat × (ℚ × Nat)) × Bool) :=
  match resolve_series final_dict prelim_dict prelim_is_final end_date use_prelim with
  | .error err => .error err
  | .ok r =>
    build_core r.1 r.2.1 start_date r.2.2 daily_cap start_year
      (end_year.getD start_date.year)

/-- The pandas frame passed to `sum_period_df`/`avg_period_df`: a column
schema and date-indexed rows (each row's values parallel to `cols`). -/
structure DataFrame where
  cols : List String
  rows : List (Date × List ℚ)

/-- `sumChunk[peril]`: locating the column in the schema; `KeyError`
becomes `.error .missingColumn`. -/
def colIdx (df : DataFrame) (peril : String) : Except Err Nat :=
  match df.cols.findIdx? (fun s => s == peril) with
  | some i => .ok i
  | none => .error .missingColumn

/-- `range(ps.year - yrs, ps.year)`: the `yrs` years strictly before the
period start year, ascending (integer arithmetic, as in Python). -/
def lookback_years (ps : Date) (yrs : Nat) : List Int :=
  (List.range yrs).map (fun (k : Nat) => (ps.year : Int) - (yrs : Int) + (k : Int))

/-- Lines 119–124 / 153–158: the slice labels for one lookback year.
`left = f"{year}-{ps.month}-{ps.day}"`; if the period crosses Jan 1
(`ps.year < pe.year`) then `right` is in `year + 1`, else in `year`.
Pandas parses the labels, raising on an invalid date. -/
def period_window (ps pe : Date) (year : Int) : Except Err (Date × Date) :=
  match mkDate year ps.month ps.day with
  | .error err => .error err
  | .ok left =>
    match (if ps.year < pe.year then mkDate (year + 1) pe.month pe.day
           else mkDate year pe.month pe.day) with
    | .error err => .error err
    | .ok right => .ok (left, right)

/-- `newdf[left:right]`: label slicing on a date index keeps exactly the
rows whose date lies in the inclusive window. -/
def window_rows (df : DataFrame) (left right : Date) : List (Date × List ℚ) :=
  df.rows.filter (fun row => dateLE left row.1 && dateLE row.1 right)

/-- One iteration of the `sum_period_df` loop (lines 118–128): slice,
select the column, reduce with `Series.sum()` (which is `0.0` on an empty
slice, never NaN). -/
def sum_year_row (df : DataFrame) (ps pe : Date) (peril : String) (year : Int) :
    Except Err (Int × Option ℚ) :=
  match period_window ps pe year with
  | .error err => .error err
  | .ok w =>
    match colIdx df peril with
    | .error err => .error err
    | .ok i =>
      .ok (year, some (((window_rows df w.1 w.2).filterMap (fun row => row.2.get? i)).sum))

/-- One iteration of the `avg_period_df` loop (lines 152–162): slice,
select the column, reduce with `Series.mean()` (NaN — `none` — on an empty
slice). -/
def avg_year_row (df : DataFrame) (ps pe : Date) (peril : String) (year : Int) :
    Except Err (Int × Option ℚ) :=
  match period_window ps pe year with
  | .error err => .error err
  | .ok w =>
    match colIdx df peril with
    | .error err => .error err
    | .ok i =>
      let vals := (window_rows df w.1 w.2).filterMap (fun row => row.2.get? i)
      .ok (year, if vals.length = 0 then none else some (vals.sum / (vals.length : ℚ)))

/-- `sum_period_df` (lines 99–129): a year-indexed table of window sums. -/
def sum_period_df (df : DataFrame) (ps pe : Date) (yrs : Nat) (peril : String) :
    Except Err (List (Int × Option ℚ)) :=
  mapE (sum_year_row df ps pe peril) (lookback_years ps yrs)

/-- `avg_period_df` (lines 132–163): a year-indexed table of window means. -/
def avg_period_df (df : DataFrame) (ps pe : Date) (yrs : Nat) (peril : String) :
    Except Err (List (Int × Option ℚ)) :=
  mapE (avg_year_row df ps pe peril) (lookback_years ps yrs)

/-! ## Generic lemmas about the embedding primitives -/

/-- A DecidableEq instance for `Except`, so concrete runs can be settled
by `decide`. -/
instance {ε α : Type} [DecidableEq ε] [DecidableEq α] : DecidableEq (Except ε α) :=
  fun a b =>
    match a, b with
    | .error e1, .error e2 =>
      match decEq e1 e2 with
      | isTrue h => isTrue (by rw [h])
      | isFalse h => isFalse (fun hc => h (Except.error.inj hc))
    | .error _, .ok _ => isFalse (fun hc => Except.noConfusion hc)
    | .ok _, .error _ => isFalse (fun hc => Except.noConfusion hc)
    | .ok a1, .ok a2 =>
      match decEq a1 a2 with
      | isTrue h => isTrue (by rw [h])
      | isFalse h => isFalse (fun hc => h (Except.ok.inj hc))

theorem mapE_forall₂_of_ok {α β : Type} {f : α → Except Err β} :
    ∀ {xs : List α} {ys : List β}, mapE f xs = .ok ys →
      List.Forall₂ (fun x y => f x = .ok y) xs ys := by
  intro xs
  induction xs with
  | nil =>
    intro ys h
    simp only [mapE] at h
    cases h
    exact List.Forall₂.nil
  | cons x xs ih =>
    intro ys h
    simp only [mapE] at h
    cases hfx : f x with
    | error err => rw [hfx] at h; cases h
    | ok y =>
      rw [hfx] at h
      cases hm : mapE f xs with
      | error err => rw [hm] at h; cases h
      | ok ys1 =>
        rw [hm] at h
        cases h
        exact List.Forall₂.cons hfx (ih hm)

theorem mapE_ok_of_forall {α β : Type} {f : α → Except Err β} :
    ∀ {xs : List α}, (∀ x ∈ xs, ∃ y, f x = .ok y) →
      ∃ ys, mapE f xs = .ok ys := by
  intro xs
  induction xs with
  | nil => intro _; exact ⟨[], rfl⟩
  | cons x xs ih =>
    intro h
    obtain ⟨y, hy⟩ := h x (List.mem_cons_self x xs)
    obtain ⟨ys, hys⟩ := ih (fun a ha => h a (List.mem_cons_of_mem x ha))
    exact ⟨y :: ys, by simp only [mapE, hy, hys]⟩

theorem mapE_error_of_mem {α β : Type} {f : α → Except Err β} {x : α} {err : Err} :
    ∀ {xs : List α}, x ∈ xs → f x = .error err →
      ∃ err1, mapE f xs = .error err1 := by
  intro xs
  induction xs with
  | nil => intro h; cases h
  | cons a xs ih =>
    intro hmem hx
    rcases List.mem_cons.mp hmem with h | h
    · subst h
      exact ⟨err, by simp only [mapE, hx]⟩
    · cases hfa : f a with
      | error e => exact ⟨e, by simp only [mapE, hfa]⟩
      | ok y =>
        obtain ⟨e1, he1⟩ := ih h hx
        exact ⟨e1, by simp only [mapE, hfa, he1]⟩

theorem mapE_congr {α β : Type} {f g : α → Except Err β} :
    ∀ {xs : List α}, (∀ x ∈ xs, f x = g x) → mapE f xs = mapE g xs := by
  intro xs
  induction xs with
  | nil => intro _; rfl
  | cons x xs ih =>
    intro h
    simp only [mapE, h x (List.mem_cons_self x xs),
      ih (fun a ha => h a (List.mem_cons_of_mem x ha))]

theorem forall₂_exists_of_mem_left {α β : Type} {R : α → β → Prop} :
    ∀ {xs : List α} {ys : List β}, List.Forall₂ R xs ys → ∀ {x}, x ∈ xs →
      ∃ y, y ∈ ys ∧ R x y := by
  intro xs ys h
  induction h with
  | nil => intro x hx; cases hx
  | cons hr _ ih =>
    intro x hx
    rcases List.mem_cons.mp hx with h1 | h1
    · subst h1; exact ⟨_, List.mem_cons_self _ _, hr⟩
    · obtain ⟨y, hy, hr1⟩ := ih h1
      exact ⟨y, List.mem_cons_of_mem _ hy, hr1⟩

theorem forall₂_exists_of_mem_right {α β : Type} {R : α → β → Prop} :
    ∀ {xs : List α} {ys : List β}, List.Forall₂ R xs ys → ∀ {y}, y ∈ ys →
      ∃ x, x ∈ xs ∧ R x y := by
  intro xs ys h
  induction h with
  | nil => intro y hy; cases hy
  | cons hr _ ih =>
    intro y hy
    rcases List.mem_cons.mp hy with h1 | h1
    · subst h1; exact ⟨_, List.mem_cons_self _ _, hr⟩
    · obtain ⟨x, hx, hr1⟩ := ih h1
      exact ⟨x, List.mem_cons_of_mem _ hx, hr1⟩

theorem forall₂_map_fst {α β : Type} {f : α → Except Err (α × β)} :
    ∀ {xs : List α} {ys : List (α × β)},
      List.Forall₂ (fun x y => f x = .ok y) xs ys →
      (∀ x p, f x = .ok p → p.1 = x) → ys.map Prod.fst = xs := by
  intro xs ys h hf
  induction h with
  | nil => rfl
  | cons hr _ ih =>
    simp only [List.map_cons, ih, hf _ _ hr]

theorem lookupD_ok_of_hasKey {dict : Series} {dt : Date} :
    hasKey dict dt = true → ∃ v, lookupD dict dt = .ok v := by
  intro h
  unfold hasKey at h
  rw [List.any_eq_true] at h
  obtain ⟨kv, hmem, hkv⟩ := h
  have : (dict.find? (fun kv => decide (kv.1 = dt))).isSome := by
    rw [List.find?_isSome]
    exact ⟨kv, hmem, hkv⟩
  unfold lookupD
  cases hf : dict.find? (fun kv => decide (kv.1 = dt)) with
  | none => rw [hf] at this; cases this
  | some kv1 => exact ⟨kv1.2, rfl⟩

theorem lookupD_error_of_not_hasKey {dict : Series} {dt : Date} :
    hasKey dict dt = false → lookupD dict dt = .error .missingDate := by
  intro h
  unfold lookupD
  cases hf : dict.find? (fun kv => decide (kv.1 = dt)) with
  | none => rfl
  | some kv =>
    exfalso
    have hmem := List.find?_some hf
    have hin := List.mem_of_find?_eq_some hf
    unfold hasKey at h
    have : dict.any (fun kv => decide (kv.1 = dt)) = true :=
      List.any_eq_true.mpr ⟨kv, hin, hmem⟩
    rw [h] at this
    cases this

theorem mem_natRange {y s e : Nat} : y ∈ natRange s e ↔ s ≤ y ∧ y ≤ e := by
  unfold natRange
  simp only [List.mem_map, List.mem_range]
  constructor
  · rintro ⟨k, hk, rfl⟩; omega
  · rintro ⟨h1, h2⟩; exact ⟨y - s, by omega, by omega⟩

theorem mem_lookback_years {ps : Date} {yrs : Nat} {y : Int} :
    y ∈ lookback_years ps yrs ↔ (ps.year : Int) - yrs ≤ y ∧ y ≤ (ps.year : Int) - 1 := by
  unfold lookback_years
  constructor
  · intro h
    obtain ⟨k, hk, he⟩ := List.mem_map.mp h
    have hk1 := List.mem_range.mp hk
    omega
  · rintro ⟨h1, h2⟩
    refine List.mem_map.mpr
      ⟨(y - ((ps.year : Int) - yrs)).toNat, List.mem_range.mpr (by omega), by omega⟩

theorem lookback_years_sorted (ps : Date) (yrs : Nat) :
    List.Pairwise (· < ·) (lookback_years ps yrs) := by
  unfold lookback_years
  rw [List.pairwise_map]
  refine (List.pairwise_lt_range yrs).imp ?_
  intro a b h
  omega

/-- Unpacking a successful `replaceYear`: month and day are preserved, the
year is the requested one (in particular the requested year was a valid
positive year for this month/day). -/
theorem replaceYear_ok {dt : Date} {y : Int} {r : Date} :
    dt.replaceYear y = .ok r →
      r.month = dt.month ∧ r.day = dt.day ∧ (r.year : Int) = y ∧
      validDate r.year r.month r.day = true := by
  intro h
  unfold Date.replaceYear mkDate at h
  by_cases hv : validDate y.toNat dt.month dt.day = true
  · rw [if_pos hv] at h
    cases h
    refine ⟨rfl, rfl, ?_, hv⟩
    have h1 : 1 ≤ y.toNat := by
      unfold validDate at hv
      simp only [Bool.and_eq_true, decide_eq_true_eq] at hv
      exact hv.1.1.1.1
    simp only
    omega
  · rw [if_neg hv] at h
    cases h

/-- Unpacking a successful `year_entry`: the recorded key is the loop year
and the pair is the (total, count) aggregate of the projected term. -/
theorem year_entry_ok {dict : Series} {start_date end_date : Date}
    {daily_cap : Option ℚ} {year : Nat} {p : Nat × (ℚ × Nat)} :
    year_entry dict start_date end_date daily_cap year = .ok p →
      ∃ hs he term t n,
        start_date.replaceYear (year : Int) = .ok hs ∧
        end_date.replaceYear
          ((year : Int) + ((end_date.year : Int) - (start_date.year : Int))) = .ok he ∧
        listify_period hs he = .ok term ∧
        term_aggregate dict term daily_cap = .ok (t, n) ∧
        p = (year, (t, n)) := by
  intro h
  unfold year_entry at h
  cases h1 : start_date.replaceYear (year : Int) with
  | error err => rw [h1] at h; cases h
  | ok hs =>
    simp only [h1] at h
    cases h2 : end_date.replaceYear
        ((year : Int) + ((end_date.year : Int) - (start_date.year : Int))) with
    | error err => simp only [h2] at h; cases h
    | ok he =>
      simp only [h2] at h
      cases h3 : listify_period hs he with
      | error err => simp only [h3] at h; cases h
      | ok term =>
        simp only [h3] at h
        cases h4 : term_aggregate dict term daily_cap with
        | error err => simp only [h4] at h; cases h
        | ok tn =>
          simp only [h4] at h
          cases h
          exact ⟨hs, he, term, tn.1, tn.2, rfl, rfl, h3, by rw [h4], rfl⟩

theorem year_entry_fst {dict : Series} {start_date end_date : Date}
    {daily_cap : Option ℚ} {year : Nat} {p : Nat × (ℚ × Nat)} :
    year_entry dict start_date end_date daily_cap year = .ok p → p.1 = year := by
  intro h
  obtain ⟨_, _, _, _, _, _, _, _, _, hp⟩ := year_entry_ok h
  rw [hp]

theorem mapE_lookup_eq_post (dict : Series) (dates : List Date) :
    mapE (fun dt => lookupD dict dt) dates =
      mapE (fun dt =>
        match lookupD dict dt with
        | .ok v => .ok (id v)
        | .error err => .error err) dates :=
  mapE_congr (fun x _ => by cases lookupD dict x <;> rfl)

theorem mapE_lookup_post_error {dict : Series} (post : ℚ → ℚ) :
    ∀ {dates : List Date}, (∃ dt ∈ dates, hasKey dict dt = false) →
      mapE (fun dt =>
        match lookupD dict dt with
        | .ok v => .ok (post v)
        | .error err => .error err) dates = .error .missingDate := by
  intro dates
  induction dates with
  | nil => rintro ⟨dt, hmem, _⟩; cases hmem
  | cons a dates ih =>
    rintro ⟨dt, hmem, hk⟩
    by_cases ha : hasKey dict a = true
    · obtain ⟨v, hv⟩ := lookupD_ok_of_hasKey ha
      have h1 : ∃ d ∈ dates, hasKey dict d = false := by
        rcases List.mem_cons.mp hmem with h | h
        · subst h; rw [ha] at hk; cases hk
        · exact ⟨dt, h, hk⟩
      simp only [mapE, hv, ih h1]
    · have ha1 : hasKey dict a = false := by
        cases h : hasKey dict a
        · rfl
        · exact absurd h ha
      simp only [mapE, lookupD_error_of_not_hasKey ha1]

theorem mapE_lookup_post_ok {dict : Series} (post : ℚ → ℚ) {dates : List Date}
    (h : ∀ dt ∈ dates, hasKey dict dt = true) :
    ∃ l, mapE (fun dt =>
        match lookupD dict dt with
        | .ok v => .ok (post v)
        | .error err => .error err) dates = .ok l ∧
      List.Forall₂ (fun dt x => ∃ v, lookupD dict dt = .ok v ∧ x = post v) dates l := by
  have hall : ∀ dt ∈ dates,
      ∃ y, (match lookupD dict dt with
            | .ok v => Except.ok (post v)
            | .error err => Except.error err) = Except.ok y := by
    intro dt hdt
    obtain ⟨v, hv⟩ := lookupD_ok_of_hasKey (h dt hdt)
    exact ⟨post v, by rw [hv]⟩
  obtain ⟨l, hl⟩ := mapE_ok_of_forall hall
  refine ⟨l, hl, (mapE_forall₂_of_ok hl).imp ?_⟩
  intro dt x hdx
  cases hv : lookupD dict dt with
  | error err => rw [hv] at hdx; cases hdx
  | ok v =>
    rw [hv] at hdx
    cases hdx
    exact ⟨v, rfl, rfl⟩

theorem rain_values_error {dict : Series} {dates : List Date} (daily_cap : Option ℚ)
    (h : ∃ dt ∈ dates, hasKey dict dt = false) :
    rain_values dict dates daily_cap = .error .missingDate := by
  cases daily_cap with
  | none => rw [rain_values, mapE_lookup_eq_post]; exact mapE_lookup_post_error id h
  | some c =>
    by_cases hc : c = 0
    · rw [rain_values, if_pos hc, mapE_lookup_eq_post]; exact mapE_lookup_post_error id h
    · rw [rain_values, if_neg hc]; exact mapE_lookup_post_error (fun v => min v c) h

theorem rain_values_ok {dict : Series} {dates : List Date} (daily_cap : Option ℚ)
    (h : ∀ dt ∈ dates, hasKey dict dt = true) :
    ∃ rain, rain_values dict dates daily_cap = .ok rain ∧ rain.length = dates.length := by
  cases daily_cap with
  | none =>
    rw [rain_values, mapE_lookup_eq_post]
    obtain ⟨l, hl, hf⟩ := mapE_lookup_post_ok id h
    exact ⟨l, hl, hf.length_eq.symm⟩
  | some c =>
    by_cases hc : c = 0
    · rw [rain_values, if_pos hc, mapE_lookup_eq_post]
      obtain ⟨l, hl, hf⟩ := mapE_lookup_post_ok id h
      exact ⟨l, hl, hf.length_eq.symm⟩
    · rw [rain_values, if_neg hc]
      obtain ⟨l, hl, hf⟩ := mapE_lookup_post_ok (fun v => min v c) h
      exact ⟨l, hl, hf.length_eq.symm⟩

theorem rain_values_min_forall₂ {dict : Series} {dates : List Date} {c : ℚ}
    (hc : c ≠ 0) {rain : List ℚ} (h : rain_values dict dates (some c) = .ok rain) :
    List.Forall₂ (fun dt x => ∃ v, lookupD dict dt = .ok v ∧ x = min v c) dates rain := by
  rw [rain_values, if_neg hc] at h
  refine (mapE_forall₂_of_ok h).imp ?_
  intro dt x hdx
  cases hv : lookupD dict dt with
  | error err => rw [hv] at hdx; cases hdx
  | ok v =>
    rw [hv] at hdx
    cases hdx
    exact ⟨v, rfl, rfl⟩

theorem rain_values_zero_cap (dict : Series) (dates : List Date) :
    rain_values dict dates (some 0) = rain_values dict dates none := by
  rw [rain_values, rain_values, if_pos rfl]

theorem term_aggregate_zero_cap (dict : Series) (dates : List Date) :
    term_aggregate dict dates (some 0) = term_aggregate dict dates none := by
  unfold term_aggregate
  rw [rain_values_zero_cap]

theorem term_result_zero_cap (dict : Series) (is_final : Bool)
    (start_date end_date : Date) :
    term_result dict is_final start_date end_date (some 0) =
      term_result dict is_final start_date end_date none := by
  unfold term_result
  simp only [term_aggregate_zero_cap]

theorem year_entry_zero_cap (dict : Series) (start_date end_date : Date) (year : Nat) :
    year_entry dict start_date end_date (some 0) year =
      year_entry dict start_date end_date none year := by
  unfold year_entry
  simp only [term_aggregate_zero_cap]

theorem build_core_zero_cap (dict : Series) (is_final : Bool)
    (start_date end_date : Date) (start_year end_year : Nat) :
    build_core dict is_final start_date end_date (some 0) start_year end_year =
      build_core dict is_final start_date end_date none start_year end_year := by
  unfold build_core
  rw [mapE_congr (fun y _ => year_entry_zero_cap dict start_date end_date y)]

theorem term_result_final_flag {dict : Series} {start_date end_date : Date}
    {daily_cap : Option ℚ} {r : ℚ × Nat × Bool} :
    term_result dict true start_date end_date daily_cap = .ok r → r.2.2 = true := by
  intro h
  unfold term_result at h
  cases h1 : listify_period start_date end_date with
  | error err => rw [h1] at h; cases h
  | ok dates =>
    simp only [h1] at h
    cases h2 : term_aggregate dict dates daily_cap with
    | error err => simp only [h2] at h; cases h
    | ok tn =>
      simp only [h2] at h
      cases h
      rfl

theorem build_core_final_flag {dict : Series} {start_date end_date : Date}
    {daily_cap : Option ℚ} {start_year end_year : Nat}
    {m : List (Nat × (ℚ × Nat))} {fl : Bool} :
    build_core dict true start_date end_date daily_cap start_year end_year = .ok (m, fl) →
      fl = true := by
  intro h
  unfold build_core at h
  cases h1 : mapE (year_entry dict start_date end_date daily_cap)
      (natRange start_year end_year) with
  | error err => rw [h1] at h; cases h
  | ok m1 =>
    simp only [h1] at h
    cases h
    rfl

theorem getLast?_mem_local {α : Type} : ∀ {l : List α} {a : α},
    l.getLast? = some a → a ∈ l := by
  intro l
  induction l with
  | nil => intro a h; cases h
  | cons x xs ih =>
    intro a h
    cases xs with
    | nil =>
      rw [List.getLast?_singleton] at h
      cases h
      exact List.mem_cons_self x []
    | cons y ys =>
      rw [List.getLast?_cons_cons] at h
      exact List.mem_cons_of_mem x (ih h)

theorem dateLE_refl (a : Date) : dateLE a a = true := by
  simp [dateLE]

/-- In a date-sorted series the last entry's key bounds every key from
above: "last" and "latest" agree. -/
theorem pairwise_dateLE_getLast : ∀ {l : Series} {kv : Date × ℚ},
    l.getLast? = some kv →
    List.Pairwise (fun a b => dateLE a.1 b.1 = true) l →
    ∀ x ∈ l, dateLE x.1 kv.1 = true := by
  intro l
  induction l with
  | nil => intro kv h; cases h
  | cons a tl ih =>
    intro kv hlast hpw x hx
    cases tl with
    | nil =>
      rw [List.getLast?_singleton] at hlast
      cases hlast
      rcases List.mem_singleton.mp hx with rfl
      exact dateLE_refl _
    | cons b tl2 =>
      rw [List.getLast?_cons_cons] at hlast
      have hkv_mem : kv ∈ b :: tl2 := getLast?_mem_local hlast
      rcases List.mem_cons.mp hx with rfl | hx2
      · exact (List.pairwise_cons.mp hpw).1 kv hkv_mem
      · exact ih hlast (List.pairwise_cons.mp hpw).2 x hx2

theorem build_eq_core {final_dict prelim_dict : Series} {prelim_is_final : Bool}
    {start_date end_date : Date} {daily_cap : Option ℚ} {start_year : Nat}
    {end_year : Option Nat} {use_prelim : Bool} {dict : Series} {isF : Bool} {eEff : Date}
    (hres : resolve_series final_dict prelim_dict prelim_is_final end_date use_prelim =
      .ok (dict, isF, eEff)) :
    build_historical_rainfall_dict final_dict prelim_dict prelim_is_final start_date
        end_date daily_cap start_year end_year use_prelim =
      build_core dict isF start_date eEff daily_cap start_year
        (end_year.getD start_date.year) := by
  unfold build_historical_rainfall_dict
  rw [hres]

theorem build_core_ok {dict : Series} {isF : Bool} {start_date end_date : Date}
    {daily_cap : Option ℚ} {start_year end_year : Nat}
    {m : List (Nat × (ℚ × Nat))} {fl : Bool} :
    build_core dict isF start_date end_date daily_cap start_year end_year = .ok (m, fl) →
      mapE (year_entry dict start_date end_date daily_cap) (natRange start_year end_year) =
        .ok m ∧ fl = isF := by
  intro h
  unfold build_core at h
  cases h1 : mapE (year_entry dict start_date end_date daily_cap)
      (natRange start_year end_year) with
  | error err => rw [h1] at h; cases h
  | ok m1 =>
    simp only [h1] at h
    cases h
    exact ⟨rfl, rfl⟩

/-! ## Claim theorems -/

/-- C1: with `use_prelim` set, if the resolved series is not authoritative
(`is_final` false) and the requested end date is absent from it, both
operations rebuild the date range from the last key of the date-sorted
series — which, when the series is sorted ascending, is its latest key —
and otherwise both use the originally requested end date unchanged. -/
theorem truncation_rule (final_dict prelim_dict : Series) (prelim_is_final : Bool)
    (start_date end_date : Date) (daily_cap : Option ℚ) (start_year : Nat)
    (end_year : Option Nat) :
    (∀ kv, prelim_is_final = false → hasKey prelim_dict end_date = false →
      prelim_dict.getLast? = some kv →
      resolve_series final_dict prelim_dict prelim_is_final end_date true =
        .ok (prelim_dict, false, kv.1) ∧
      sum_period_rainfall final_dict prelim_dict prelim_is_final start_date end_date
          daily_cap true =
        term_result prelim_dict false start_date kv.1 daily_cap ∧
      build_historical_rainfall_dict final_dict prelim_dict prelim_is_final start_date
          end_date daily_cap start_year end_year true =
        build_core prelim_dict false start_date kv.1 daily_cap start_year
          (end_year.getD start_date.year) ∧
      (List.Pairwise (fun a b => dateLE a.1 b.1 = true) prelim_dict →
        ∀ x ∈ prelim_dict, dateLE x.1 kv.1 = true)) ∧
    ((prelim_is_final = true ∨ hasKey prelim_dict end_date = true) →
      resolve_series final_dict prelim_dict prelim_is_final end_date true =
        .ok (prelim_dict, prelim_is_final, end_date) ∧
      sum_period_rainfall final_dict prelim_dict prelim_is_final start_date end_date
          daily_cap true =
        term_result prelim_dict prelim_is_final start_date end_date daily_cap ∧
      build_historical_rainfall_dict final_dict prelim_dict prelim_is_final start_date
          end_date daily_cap start_year end_year true =
        build_core prelim_dict prelim_is_final start_date end_date daily_cap start_year
          (end_year.getD start_date.year)) := by
  constructor
  · intro kv h1 h2 h3
    subst h1
    have htr : truncated_end prelim_dict false end_date = .ok kv.1 := by
      unfold truncated_end
      rw [if_pos ⟨rfl, h2⟩, h3]
    have hres : resolve_series final_dict prelim_dict false end_date true =
        .ok (prelim_dict, false, kv.1) := by
      rw [resolve_series, htr]
    refine ⟨hres, ?_, ?_, fun hpw => pairwise_dateLE_getLast h3 hpw⟩
    · unfold sum_period_rainfall
      rw [hres]
    · unfold build_historical_rainfall_dict
      rw [hres]
  · intro h
    have htr : truncated_end prelim_dict prelim_is_final end_date = .ok end_date := by
      unfold truncated_end
      rw [if_neg]
      rintro ⟨hc1, hc2⟩
      rcases h with h | h
      · rw [h] at hc1; cases hc1
      · rw [h] at hc2; cases hc2
    have hres : resolve_series final_dict prelim_dict prelim_is_final end_date true =
        .ok (prelim_dict, prelim_is_final, end_date) := by
      rw [resolve_series, htr]
    refine ⟨hres, ?_, ?_⟩
    · unfold sum_period_rainfall
      rw [hres]
    · unfold build_historical_rainfall_dict
      rw [hres]

theorem truncation_rule_witness :
    sum_period_rainfall [] [(⟨2020, 1, 1⟩, 1), (⟨2020, 1, 2⟩, 2)] false
        ⟨2020, 1, 1⟩ ⟨2020, 1, 5⟩ none true =
      term_result [(⟨2020, 1, 1⟩, 1), (⟨2020, 1, 2⟩, 2)] false ⟨2020, 1, 1⟩
        ⟨2020, 1, 2⟩ none ∧
    (∀ x ∈ [((⟨2020, 1, 1⟩ : Date), (1 : ℚ)), (⟨2020, 1, 2⟩, 2)],
      dateLE x.1 ⟨2020, 1, 2⟩ = true) := by
  have h := (truncation_rule [] [(⟨2020, 1, 1⟩, 1), (⟨2020, 1, 2⟩, 2)] false
      ⟨2020, 1, 1⟩ ⟨2020, 1, 5⟩ none 1981 none).1 (⟨2020, 1, 2⟩, 2) rfl (by decide) rfl
  exact ⟨h.2.1, h.2.2.2 (by decide)⟩

/-- C8: for every series and date sequence, the term aggregation (the
cap-aware comprehension plus `(sum(rain), len(rain))` shared by
`sum_period_rainfall` and `build_historical_rainfall_dict`) fails with
`MissingDateError` when any requested date is absent from the series, and
succeeds — returning the sum of the (possibly clipped) values and the
length of the date sequence — when every requested date is present. -/
theorem term_aggregation_missing_date (dict : Series) (dates : List Date)
    (daily_cap : Option ℚ) :
    ((∃ dt ∈ dates, hasKey dict dt = false) →
      rain_values dict dates daily_cap = .error .missingDate ∧
      term_aggregate dict dates daily_cap = .error .missingDate) ∧
    ((∀ dt ∈ dates, hasKey dict dt = true) →
      ∃ rain, rain_values dict dates daily_cap = .ok rain ∧
        term_aggregate dict dates daily_cap = .ok (rain.sum, dates.length)) := by
  constructor
  · intro h
    have h1 := rain_values_error daily_cap h
    refine ⟨h1, ?_⟩
    unfold term_aggregate
    rw [h1]
  · intro h
    obtain ⟨rain, hrain, hlen⟩ := rain_values_ok daily_cap h
    refine ⟨rain, hrain, ?_⟩
    unfold term_aggregate
    simp only [hrain, hlen]

theorem term_aggregation_missing_date_witness :
    (rain_values [] [⟨2020, 1, 1⟩] none = .error .missingDate ∧
      term_aggregate [] [⟨2020, 1, 1⟩] none = .error .missingDate) ∧
    ∃ rain, rain_values [(⟨2020, 1, 1⟩, 3)] [⟨2020, 1, 1⟩] none = .ok rain ∧
      term_aggregate [(⟨2020, 1, 1⟩, 3)] [⟨2020, 1, 1⟩] none = .ok (rain.sum, 1) := by
  constructor
  · exact (term_aggregation_missing_date [] [⟨2020, 1, 1⟩] none).1
      ⟨⟨2020, 1, 1⟩, by decide, by decide⟩
  · exact (term_aggregation_missing_date [(⟨2020, 1, 1⟩, 3)] [⟨2020, 1, 1⟩] none).2
      (by decide)

/-- C5 (counterexample): with `daily_cap = 0` the code does not clip at
all — `if daily_cap:` is falsy for `0.0` — so a daily value of `5` passes
through and the total `5` exceeds `cap * count = 0`.  The claim's "for
every cap c" is therefore false at `c = 0`. -/
theorem cap_bound_cex :
    term_aggregate [(⟨2020, 1, 1⟩, 5)] [⟨2020, 1, 1⟩] (some 0) = .ok (5, 1) ∧
      ¬((5 : ℚ) ≤ 0 * ((1 : Nat) : ℚ)) := by
  constructor
  · have h : term_aggregate [(⟨2020, 1, 1⟩, 5)] [⟨2020, 1, 1⟩] (some 0) =
        .ok (List.sum [(5 : ℚ)], 1) := rfl
    rw [h]
    simp
  · norm_num

/-- C5 (amended): for every *nonzero* cap `c` (the truthy case of
`if daily_cap:`), each daily value is replaced by `min(value, c)` — a
ceiling only, never a floor — and hence a successful total is at most
`c * count`. -/
theorem nonzero_cap_bounds (dict : Series) (dates : List Date) (c t : ℚ) (n : Nat) :
    c ≠ 0 → term_aggregate dict dates (some c) = .ok (t, n) →
      ∃ rain, rain_values dict dates (some c) = .ok rain ∧
        List.Forall₂ (fun dt x => ∃ v, lookupD dict dt = .ok v ∧ x = min v c) dates rain ∧
        (∀ x ∈ rain, x ≤ c) ∧ t = rain.sum ∧ n = dates.length ∧ t ≤ c * (n : ℚ) := by
  intro hc h
  unfold term_aggregate at h
  cases hrv : rain_values dict dates (some c) with
  | error err => rw [hrv] at h; cases h
  | ok rain =>
    simp only [hrv] at h
    cases h
    have hf := rain_values_min_forall₂ hc hrv
    have hub : ∀ x ∈ rain, x ≤ c := by
      intro x hx
      obtain ⟨dt, _, v, _, hxv⟩ := forall₂_exists_of_mem_right hf hx
      rw [hxv]
      exact min_le_right v c
    have hlen : rain.length = dates.length := hf.length_eq.symm
    refine ⟨rain, rfl, hf, hub, rfl, hlen, ?_⟩
    calc rain.sum ≤ rain.length • c := List.sum_le_card_nsmul rain c hub
    _ = (rain.length : ℚ) * c := nsmul_eq_mul rain.length c
    _ = c * (rain.length : ℚ) := mul_comm _ _

theorem nonzero_cap_bounds_witness :
    ∃ rain, rain_values [(⟨2020, 1, 1⟩, 10)] [⟨2020, 1, 1⟩] (some 7) = .ok rain ∧
      List.Forall₂ (fun dt x => ∃ v, lookupD [(⟨2020, 1, 1⟩, 10)] dt = .ok v ∧ x = min v 7)
        [⟨2020, 1, 1⟩] rain ∧
      (∀ x ∈ rain, x ≤ 7) ∧ List.sum [min (10 : ℚ) 7] = rain.sum ∧
      (1 : Nat) = [(⟨2020, 1, 1⟩ : Date)].length ∧
      List.sum [min (10 : ℚ) 7] ≤ 7 * ((1 : Nat) : ℚ) :=
  nonzero_cap_bounds [(⟨2020, 1, 1⟩, 10)] [⟨2020, 1, 1⟩] 7 (List.sum [min (10 : ℚ) 7]) 1
    (by norm_num) rfl

/-- C10: a `daily_cap` of `0` behaves exactly like passing no cap, for the
value comprehension and for both whole operations: `if daily_cap:` tests
truthiness, and `0.0` is falsy, so no clipping happens. -/
theorem zero_cap_ignored (final_dict prelim_dict dict : Series) (prelim_is_final : Bool)
    (start_date end_date : Date) (dates : List Date) (start_year : Nat)
    (end_year : Option Nat) (use_prelim : Bool) :
    rain_values dict dates (some 0) = rain_values dict dates none ∧
    sum_period_rainfall final_dict prelim_dict prelim_is_final start_date end_date
        (some 0) use_prelim =
      sum_period_rainfall final_dict prelim_dict prelim_is_final start_date end_date
        none use_prelim ∧
    build_historical_rainfall_dict final_dict prelim_dict prelim_is_final start_date
        end_date (some 0) start_year end_year use_prelim =
      build_historical_rainfall_dict final_dict prelim_dict prelim_is_final start_date
        end_date none start_year end_year use_prelim := by
  refine ⟨rain_values_zero_cap dict dates, ?_, ?_⟩
  · unfold sum_period_rainfall
    cases resolve_series final_dict prelim_dict prelim_is_final end_date use_prelim with
    | error err => rfl
    | ok r => exact term_result_zero_cap r.1 r.2.1 start_date r.2.2
  · unfold build_historical_rainfall_dict
    cases resolve_series final_dict prelim_dict prelim_is_final end_date use_prelim with
    | error err => rfl
    | ok r =>
      exact build_core_zero_cap r.1 r.2.1 start_date r.2.2 start_year
        (end_year.getD start_date.year)

/-- C6: with `use_prelim = False` both operations take the authoritative
path, where `is_final` is initialised to `True` and never reassigned: any
successful result carries `is_final = True` regardless of the fetched
data. -/
theorem final_flag_on_authoritative (final_dict prelim_dict : Series)
    (prelim_is_final : Bool) (start_date end_date : Date) (daily_cap : Option ℚ)
    (start_year : Nat) (end_year : Option Nat) (r : ℚ × Nat × Bool)
    (m : List (Nat × (ℚ × Nat))) (fl : Bool) :
    (sum_period_rainfall final_dict prelim_dict prelim_is_final start_date end_date
        daily_cap false = .ok r → r.2.2 = true) ∧
    (build_historical_rainfall_dict final_dict prelim_dict prelim_is_final start_date
        end_date daily_cap start_year end_year false = .ok (m, fl) → fl = true) := by
  constructor
  · intro h
    exact @term_result_final_flag final_dict start_date end_date daily_cap r h
  · intro h
    exact @build_core_final_flag final_dict start_date end_date daily_cap start_year
      (end_year.getD start_date.year) m fl h

theorem final_flag_on_authoritative_witness :
    ((List.sum [(1 : ℚ)]), (1 : Nat), true).2.2 = true :=
  (final_flag_on_authoritative [(⟨2020, 6, 1⟩, 1)] [] true ⟨2020, 6, 1⟩ ⟨2020, 6, 1⟩
      none 1981 none (List.sum [(1 : ℚ)], (1 : Nat), true) [] true).1 rfl

/-- C3: a successful `build_historical_rainfall_dict` with
`start_year ≤ end_year` returns the years `[start_year, end_year]`
inclusive as keys, in order, each mapped to the `(total, day count)`
aggregate of that year's projected term over the resolved series; and an
omitted `end_year` defaults to `start_date.year`. -/
theorem year_keys (final_dict prelim_dict : Series) (prelim_is_final : Bool)
    (start_date end_date : Date) (daily_cap : Option ℚ) (start_year end_year : Nat)
    (use_prelim : Bool) (m : List (Nat × (ℚ × Nat))) (fl : Bool) :
    (build_historical_rainfall_dict final_dict prelim_dict prelim_is_final start_date
        end_date daily_cap start_year none use_prelim =
      build_historical_rainfall_dict final_dict prelim_dict prelim_is_final start_date
        end_date daily_cap start_year (some start_date.year) use_prelim) ∧
    (start_year ≤ end_year →
      build_historical_rainfall_dict final_dict prelim_dict prelim_is_final start_date
          end_date daily_cap start_year (some end_year) use_prelim = .ok (m, fl) →
      m.map Prod.fst = natRange start_year end_year ∧
      (∀ y, y ∈ m.map Prod.fst ↔ start_year ≤ y ∧ y ≤ end_year) ∧
      ∀ dict isF eEff,
        resolve_series final_dict prelim_dict prelim_is_final end_date use_prelim =
          .ok (dict, isF, eEff) →
        ∀ p ∈ m, year_entry dict start_date eEff daily_cap p.1 = .ok p) := by
  constructor
  · rfl
  · intro hle hb
    cases hres : resolve_series final_dict prelim_dict prelim_is_final end_date
        use_prelim with
    | error err =>
      unfold build_historical_rainfall_dict at hb
      simp only [hres] at hb
      cases hb
    | ok r =>
      obtain ⟨dict, isF, eEff⟩ := r
      rw [build_eq_core hres] at hb
      simp only [Option.getD_some] at hb
      obtain ⟨hmap, hfl⟩ := build_core_ok hb
      have hf2 := mapE_forall₂_of_ok hmap
      have hkeys : m.map Prod.fst = natRange start_year end_year :=
        forall₂_map_fst hf2 (fun x p hp => year_entry_fst hp)
      refine ⟨hkeys, ?_, ?_⟩
      · intro y; rw [hkeys]; exact mem_natRange
      · intro dict2 isF2 eEff2 hres2 p hp
        cases hres2
        obtain ⟨y, _, hok⟩ := forall₂_exists_of_mem_right hf2 hp
        rw [year_entry_fst hok]
        exact hok

theorem year_keys_witness :
    [(2000, (List.sum [(1 : ℚ), 1], 2)), (2001, (List.sum [(1 : ℚ), 1], 2))].map
        Prod.fst = natRange 2000 2001 ∧
    (∀ y, y ∈ [(2000, (List.sum [(1 : ℚ), 1], 2)),
        (2001, (List.sum [(1 : ℚ), 1], 2))].map Prod.fst ↔ 2000 ≤ y ∧ y ≤ 2001) ∧
    ∀ dict isF eEff,
      resolve_series
          [(⟨2000, 6, 1⟩, 1), (⟨2000, 6, 2⟩, 1), (⟨2001, 6, 1⟩, 1), (⟨2001, 6, 2⟩, 1)]
          [] true ⟨2000, 6, 2⟩ false = .ok (dict, isF, eEff) →
      ∀ p ∈ [((2000 : Nat), (List.sum [(1 : ℚ), 1], (2 : Nat))),
          (2001, (List.sum [(1 : ℚ), 1], 2))],
        year_entry dict ⟨2000, 6, 1⟩ eEff none p.1 = .ok p :=
  (year_keys [(⟨2000, 6, 1⟩, 1), (⟨2000, 6, 2⟩, 1), (⟨2001, 6, 1⟩, 1), (⟨2001, 6, 2⟩, 1)]
      [] true ⟨2000, 6, 1⟩ ⟨2000, 6, 2⟩ none 2000 2001 false
      [(2000, (List.sum [(1 : ℚ), 1], 2)), (2001, (List.sum [(1 : ℚ), 1], 2))]
      true).2 (by omega) rfl

/-- C2: every entry of a successful `build_historical_rainfall_dict` was
computed over the span from `start_date` with its year replaced by the
entry's year `y` to the (effective) end date with its year replaced by
`y + (end_date.year - start_date.year)`; a term whose end year exceeds its
start year therefore ends in a strictly later year than `y` — exactly
`y + 1` when it crosses a single January 1st. -/
theorem historical_projection (final_dict prelim_dict : Series) (prelim_is_final : Bool)
    (start_date end_date : Date) (daily_cap : Option ℚ) (start_year : Nat)
    (end_year : Option Nat) (use_prelim : Bool) (m : List (Nat × (ℚ × Nat))) (fl : Bool) :
    build_historical_rainfall_dict final_dict prelim_dict prelim_is_final start_date
        end_date daily_cap start_year end_year use_prelim = .ok (m, fl) →
    ∀ dict isF eEff,
      resolve_series final_dict prelim_dict prelim_is_final end_date use_prelim =
        .ok (dict, isF, eEff) →
      ∀ p ∈ m, ∃ hs he term t n,
        start_date.replaceYear (p.1 : Int) = .ok hs ∧
        eEff.replaceYear
          ((p.1 : Int) + ((eEff.year : Int) - (start_date.year : Int))) = .ok he ∧
        hs.year = p.1 ∧ hs.month = start_date.month ∧ hs.day = start_date.day ∧
        (he.year : Int) = (p.1 : Int) + ((eEff.year : Int) - (start_date.year : Int)) ∧
        he.month = eEff.month ∧ he.day = eEff.day ∧
        (start_date.year < eEff.year → p.1 < he.year) ∧
        (eEff.year = start_date.year + 1 → he.year = p.1 + 1) ∧
        listify_period hs he = .ok term ∧
        term_aggregate dict term daily_cap = .ok (t, n) ∧
        p.2 = (t, n) := by
  intro hb dict isF eEff hres
  rw [build_eq_core hres] at hb
  obtain ⟨hmap, hfl⟩ := build_core_ok hb
  have hf2 := mapE_forall₂_of_ok hmap
  intro p hp
  obtain ⟨y, _, hok⟩ := forall₂_exists_of_mem_right hf2 hp
  have hfst := year_entry_fst hok
  subst hfst
  obtain ⟨hs, he, term, t, n, h1, h2, h3, h4, h5⟩ := year_entry_ok hok
  obtain ⟨hm1, hd1, hy1, _⟩ := replaceYear_ok h1
  obtain ⟨hm2, hd2, hy2, _⟩ := replaceYear_ok h2
  refine ⟨hs, he, term, t, n, h1, h2, by omega, hm1, hd1, hy2, hm2, hd2,
    by omega, by omega, h3, h4, by rw [h5]⟩

theorem historical_projection_witness :
    ∃ hs he term t n,
      Date.replaceYear ⟨2000, 12, 25⟩ ((2000 : Nat) : Int) = .ok hs ∧
      Date.replaceYear ⟨2001, 1, 5⟩
        (((2000 : Nat) : Int) + (((2001 : Nat) : Int) - ((2000 : Nat) : Int))) = .ok he ∧
      hs.year = 2000 ∧ hs.month = 12 ∧ hs.day = 25 ∧
      (he.year : Int) = ((2000 : Nat) : Int) + (((2001 : Nat) : Int) - ((2000 : Nat) : Int)) ∧
      he.month = 1 ∧ he.day = 5 ∧
      (2000 < 2001 → 2000 < he.year) ∧
      (2001 = 2000 + 1 → he.year = 2000 + 1) ∧
      listify_period hs he = .ok term ∧
      term_aggregate
        [(⟨2000, 12, 25⟩, 1), (⟨2000, 12, 26⟩, 1), (⟨2000, 12, 27⟩, 1),
         (⟨2000, 12, 28⟩, 1), (⟨2000, 12, 29⟩, 1), (⟨2000, 12, 30⟩, 1),
         (⟨2000, 12, 31⟩, 1), (⟨2001, 1, 1⟩, 1), (⟨2001, 1, 2⟩, 1),
         (⟨2001, 1, 3⟩, 1), (⟨2001, 1, 4⟩, 1), (⟨2001, 1, 5⟩, 1)] term none = .ok (t, n) ∧
      ((List.sum [(1 : ℚ), 1, 1, 1, 1, 1, 1, 1, 1, 1, 1, 1], (12 : Nat)) : ℚ × Nat)
        = (t, n) := by
  have h := historical_projection
    [(⟨2000, 12, 25⟩, 1), (⟨2000, 12, 26⟩, 1), (⟨2000, 12, 27⟩, 1),
     (⟨2000, 12, 28⟩, 1), (⟨2000, 12, 29⟩, 1), (⟨2000, 12, 30⟩, 1),
     (⟨2000, 12, 31⟩, 1), (⟨2001, 1, 1⟩, 1), (⟨2001, 1, 2⟩, 1),
     (⟨2001, 1, 3⟩, 1), (⟨2001, 1, 4⟩, 1), (⟨2001, 1, 5⟩, 1)]
    [] true ⟨2000, 12, 25⟩ ⟨2001, 1, 5⟩ none 2000 (some 2000) false
    [(2000, (List.sum [(1 : ℚ), 1, 1, 1, 1, 1, 1, 1, 1, 1, 1, 1], 12))] true
    rfl _ _ _ rfl
    (2000, (List.sum [(1 : ℚ), 1, 1, 1, 1, 1, 1, 1, 1, 1, 1, 1], 12))
    (List.mem_singleton.mpr rfl)
  exact h

/-- C9 (counterexample): projecting a Feb 29 date onto a non-leap year
does not produce a substitute date — `date.replace` raises `ValueError`
and the whole call fails.  This happens both for a Feb 29 `start_date`
(projected onto non-leap 2021) and for a Feb 29 end date whose projected
historical end lands on a non-leap year (end 2020-02-29 with a one-year
offset projects year 2022 onto non-leap 2023).  The claimed totality of
the projection step is false at these inputs. -/
theorem feb29_projection_cex :
    build_historical_rainfall_dict [] [] true ⟨2020, 2, 29⟩ ⟨2020, 3, 1⟩ none
        2021 (some 2021) false = .error .invalidDate ∧
    build_historical_rainfall_dict [] [] true ⟨2019, 3, 1⟩ ⟨2020, 2, 29⟩ none
        2022 (some 2022) false = .error .invalidDate ∧
    Date.replaceYear ⟨2020, 2, 29⟩ 2021 = .error .invalidDate ∧
    Date.replaceYear ⟨2020, 2, 29⟩ 2023 = .error .invalidDate := by
  exact ⟨rfl, rfl, rfl, rfl⟩

/-- C9 (amended): the year projection of
`build_historical_rainfall_dict` is *not* total: whenever `start_date`
falls on Feb 29 and some target year `y` in the replication range is not
a leap year, or the (effective) end date falls on Feb 29 and its
projected year `y + (end_date.year - start_date.year)` is not a leap
year, `date.replace(year=...)` raises `ValueError` and the whole call
fails, instead of substituting a nearby date such as Feb 28. -/
theorem feb29_projection_fails (final_dict prelim_dict : Series) (prelim_is_final : Bool)
    (start_date end_date : Date) (daily_cap : Option ℚ) (start_year : Nat)
    (end_year : Option Nat) (use_prelim : Bool) (y : Nat) :
    (start_date.month = 2 → start_date.day = 29 →
      y ∈ natRange start_year (end_year.getD start_date.year) →
      isLeapYear y = false →
      ∃ err, build_historical_rainfall_dict final_dict prelim_dict prelim_is_final
        start_date end_date daily_cap start_year end_year use_prelim = .error err) ∧
    (∀ dict isF eEff,
      resolve_series final_dict prelim_dict prelim_is_final end_date use_prelim =
        .ok (dict, isF, eEff) →
      eEff.month = 2 → eEff.day = 29 →
      y ∈ natRange start_year (end_year.getD start_date.year) →
      isLeapYear ((y : Int) + ((eEff.year : Int) - (start_date.year : Int))).toNat =
        false →
      ∃ err, build_historical_rainfall_dict final_dict prelim_dict prelim_is_final
        start_date end_date daily_cap start_year end_year use_prelim = .error err) := by
  constructor
  · intro hm hd hy hleap
    cases hres : resolve_series final_dict prelim_dict prelim_is_final end_date
        use_prelim with
    | error err =>
      refine ⟨err, ?_⟩
      unfold build_historical_rainfall_dict
      rw [hres]
    | ok r =>
      have hval : validDate y 2 29 = false := by
        simp [validDate, daysInMonth, hleap]
      have hrep : start_date.replaceYear (y : Int) = .error .invalidDate := by
        unfold Date.replaceYear mkDate
        rw [hm, hd]
        simp [hval]
      have hentry : year_entry r.1 start_date r.2.2 daily_cap y = .error .invalidDate := by
        unfold year_entry
        rw [hrep]
      obtain ⟨err1, herr1⟩ := mapE_error_of_mem hy hentry
      refine ⟨err1, ?_⟩
      unfold build_historical_rainfall_dict
      simp only [hres]
      unfold build_core
      rw [herr1]
  · intro dict isF eEff hres hm hd hy hleap
    have hval : validDate
        ((y : Int) + ((eEff.year : Int) - (start_date.year : Int))).toNat 2 29 = false := by
      simp [validDate, daysInMonth, hleap]
    have hrep : eEff.replaceYear
        ((y : Int) + ((eEff.year : Int) - (start_date.year : Int))) =
        .error .invalidDate := by
      unfold Date.replaceYear mkDate
      rw [hm, hd]
      simp [hval]
    cases hsr : start_date.replaceYear (y : Int) with
    | error errS =>
      have hentry : year_entry dict start_date eEff daily_cap y = .error errS := by
        unfold year_entry
        rw [hsr]
      obtain ⟨err1, herr1⟩ := mapE_error_of_mem hy hentry
      refine ⟨err1, ?_⟩
      unfold build_historical_rainfall_dict
      simp only [hres]
      unfold build_core
      rw [herr1]
    | ok hs =>
      have hentry : year_entry dict start_date eEff daily_cap y =
          .error .invalidDate := by
        unfold year_entry
        simp only [hsr, hrep]
      obtain ⟨err1, herr1⟩ := mapE_error_of_mem hy hentry
      refine ⟨err1, ?_⟩
      unfold build_historical_rainfall_dict
      simp only [hres]
      unfold build_core
      rw [herr1]

theorem feb29_projection_fails_witness :
    (∃ err, build_historical_rainfall_dict [] [] true ⟨2020, 2, 29⟩ ⟨2020, 3, 5⟩ none
      2021 (some 2021) false = .error err) ∧
    (∃ err, build_historical_rainfall_dict [] [] true ⟨2019, 3, 1⟩ ⟨2020, 2, 29⟩ none
      2022 (some 2022) false = .error err) := by
  constructor
  · exact (feb29_projection_fails [] [] true ⟨2020, 2, 29⟩ ⟨2020, 3, 5⟩ none 2021
      (some 2021) false 2021).1 rfl rfl (by decide) rfl
  · exact (feb29_projection_fails [] [] true ⟨2019, 3, 1⟩ ⟨2020, 2, 29⟩ none 2022
      (some 2022) false 2022).2 [] true ⟨2020, 2, 29⟩ rfl rfl rfl (by decide) rfl

theorem sum_year_row_fst {df : DataFrame} {ps pe : Date} {peril : String} {year : Int}
    {p : Int × Option ℚ} : sum_year_row df ps pe peril year = .ok p → p.1 = year := by
  intro h
  unfold sum_year_row at h
  cases h1 : period_window ps pe year with
  | error err => rw [h1] at h; cases h
  | ok w =>
    simp only [h1] at h
    cases h2 : colIdx df peril with
    | error err => rw [h2] at h; cases h
    | ok i =>
      simp only [h2] at h
      cases h
      rfl

theorem avg_year_row_fst {df : DataFrame} {ps pe : Date} {peril : String} {year : Int}
    {p : Int × Option ℚ} : avg_year_row df ps pe peril year = .ok p → p.1 = year := by
  intro h
  unfold avg_year_row at h
  cases h1 : period_window ps pe year with
  | error err => rw [h1] at h; cases h
  | ok w =>
    simp only [h1] at h
    cases h2 : colIdx df peril with
    | error err => rw [h2] at h; cases h
    | ok i =>
      simp only [h2] at h
      cases h
      rfl

/-- C4: a successful windowed reduction (`sum_period_df` or
`avg_period_df`) with lookback `yrs` produces rows keyed by exactly the
years `[ps.year - yrs, ps.year - 1]` — never the period's start year
itself — ascending, with the year as the row key. -/
theorem lookback_keys (df : DataFrame) (ps pe : Date) (yrs : Nat) (peril : String)
    (rows rows' : List (Int × Option ℚ)) :
    (sum_period_df df ps pe yrs peril = .ok rows →
      rows.map Prod.fst = lookback_years ps yrs ∧
      (∀ y, y ∈ rows.map Prod.fst ↔
        (ps.year : Int) - yrs ≤ y ∧ y ≤ (ps.year : Int) - 1) ∧
      List.Pairwise (· < ·) (rows.map Prod.fst) ∧
      (ps.year : Int) ∉ rows.map Prod.fst) ∧
    (avg_period_df df ps pe yrs peril = .ok rows' →
      rows'.map Prod.fst = lookback_years ps yrs ∧
      (∀ y, y ∈ rows'.map Prod.fst ↔
        (ps.year : Int) - yrs ≤ y ∧ y ≤ (ps.year : Int) - 1) ∧
      List.Pairwise (· < ·) (rows'.map Prod.fst) ∧
      (ps.year : Int) ∉ rows'.map Prod.fst) := by
  constructor
  · intro h
    unfold sum_period_df at h
    have hf2 := mapE_forall₂_of_ok h
    have hkeys : rows.map Prod.fst = lookback_years ps yrs :=
      forall₂_map_fst hf2 (fun x p hp => sum_year_row_fst hp)
    refine ⟨hkeys, ?_, ?_, ?_⟩
    · intro y; rw [hkeys]; exact mem_lookback_years
    · rw [hkeys]; exact lookback_years_sorted ps yrs
    · intro hmem
      rw [hkeys] at hmem
      have := mem_lookback_years.mp hmem
      omega
  · intro h
    unfold avg_period_df at h
    have hf2 := mapE_forall₂_of_ok h
    have hkeys : rows'.map Prod.fst = lookback_years ps yrs :=
      forall₂_map_fst hf2 (fun x p hp => avg_year_row_fst hp)
    refine ⟨hkeys, ?_, ?_, ?_⟩
    · intro y; rw [hkeys]; exact mem_lookback_years
    · rw [hkeys]; exact lookback_years_sorted ps yrs
    · intro hmem
      rw [hkeys] at hmem
      have := mem_lookback_years.mp hmem
      omega

theorem lookback_keys_witness :
    ([((2018 : Int), some (0 : ℚ)), (2019, some 0)].map Prod.fst =
        lookback_years ⟨2020, 6, 1⟩ 2 ∧
      (∀ y, y ∈ [((2018 : Int), some (0 : ℚ)), (2019, some 0)].map Prod.fst ↔
        ((2020 : Int) - 2 ≤ y ∧ y ≤ (2020 : Int) - 1)) ∧
      List.Pairwise (· < ·) ([((2018 : Int), some (0 : ℚ)), (2019, some 0)].map Prod.fst) ∧
      ((2020 : Int) ∉ [((2018 : Int), some (0 : ℚ)), (2019, some 0)].map Prod.fst)) ∧
    ([((2018 : Int), (none : Option ℚ)), (2019, none)].map Prod.fst =
        lookback_years ⟨2020, 6, 1⟩ 2 ∧
      (∀ y, y ∈ [((2018 : Int), (none : Option ℚ)), (2019, none)].map Prod.fst ↔
        ((2020 : Int) - 2 ≤ y ∧ y ≤ (2020 : Int) - 1)) ∧
      List.Pairwise (· < ·) ([((2018 : Int), (none : Option ℚ)), (2019, none)].map Prod.fst) ∧
      ((2020 : Int) ∉ [((2018 : Int), (none : Option ℚ)), (2019, none)].map Prod.fst)) := by
  have h := lookback_keys ⟨["rain"], []⟩ ⟨2020, 6, 1⟩ ⟨2020, 6, 10⟩ 2 "rain"
    [((2018 : Int), some (0 : ℚ)), (2019, some 0)]
    [((2018 : Int), (none : Option ℚ)), (2019, none)]
  exact ⟨h.1 rfl, h.2 rfl⟩

/-- C7 (counterexample): a lookback year whose window matches no rows does
not yield NaN for the SUM reducer — pandas' `Series.sum()` of an empty
slice is `0.0`, so the row value is `0`, not NaN (`none`).  The claim's
"for both the SUM and MEAN reducers" is therefore false. -/
theorem empty_window_cex :
    sum_period_df ⟨["rain"], []⟩ ⟨2020, 6, 1⟩ ⟨2020, 6, 10⟩ 1 "rain" =
      .ok [((2019 : Int), some (0 : ℚ))] ∧ some (0 : ℚ) ≠ none := by
  exact ⟨rfl, by simp⟩

/-- C7 (amended): a lookback year whose sliced window contains no matching
rows raises no error for either reducer; its row value is NaN (`none`) for
the MEAN reducer but `0.0` for the SUM reducer. -/
theorem empty_window_value (df : DataFrame) (ps pe : Date) (yrs : Nat)
    (peril : String) (i : Nat) :
    colIdx df peril = .ok i →
    (∀ y ∈ lookback_years ps yrs, ∃ w, period_window ps pe y = .ok w) →
    ∃ rows rows',
      sum_period_df df ps pe yrs peril = .ok rows ∧
      avg_period_df df ps pe yrs peril = .ok rows' ∧
      ∀ y ∈ lookback_years ps yrs, ∀ left right,
        period_window ps pe y = .ok (left, right) →
        window_rows df left right = [] →
        ((y, some 0) ∈ rows ∧ (y, none) ∈ rows') := by
  intro hcol hwin
  have hsum_all : ∀ y ∈ lookback_years ps yrs,
      ∃ p, sum_year_row df ps pe peril y = .ok p := by
    intro y hy
    obtain ⟨w, hw⟩ := hwin y hy
    refine ⟨(y, some (((window_rows df w.1 w.2).filterMap
      (fun row => row.2.get? i)).sum)), ?_⟩
    unfold sum_year_row
    simp only [hw, hcol]
  have havg_all : ∀ y ∈ lookback_years ps yrs,
      ∃ p, avg_year_row df ps pe peril y = .ok p := by
    intro y hy
    obtain ⟨w, hw⟩ := hwin y hy
    refine ⟨(y,
      if ((window_rows df w.1 w.2).filterMap (fun row => row.2.get? i)).length = 0
      then none
      else some (((window_rows df w.1 w.2).filterMap (fun row => row.2.get? i)).sum /
        (((window_rows df w.1 w.2).filterMap (fun row => row.2.get? i)).length : ℚ))), ?_⟩
    unfold avg_year_row
    simp only [hw, hcol]
  obtain ⟨rows, hrows⟩ := mapE_ok_of_forall hsum_all
  obtain ⟨rows1, hrows1⟩ := mapE_ok_of_forall havg_all
  refine ⟨rows, rows1, hrows, hrows1, ?_⟩
  intro y hy left right hw hempty
  constructor
  · have hf := mapE_forall₂_of_ok hrows
    obtain ⟨p, hpmem, hpok⟩ := forall₂_exists_of_mem_left hf hy
    have hval : sum_year_row df ps pe peril y = .ok (y, some 0) := by
      unfold sum_year_row
      simp only [hw, hcol, hempty, List.filterMap_nil, List.sum_nil]
    rw [hval] at hpok
    cases hpok
    exact hpmem
  · have hf := mapE_forall₂_of_ok hrows1
    obtain ⟨p, hpmem, hpok⟩ := forall₂_exists_of_mem_left hf hy
    have hval : avg_year_row df ps pe peril y = .ok (y, none) := by
      unfold avg_year_row
      simp only [hw, hcol, hempty, List.filterMap_nil, List.length_nil, if_pos]
    rw [hval] at hpok
    cases hpok
    exact hpmem

theorem empty_window_value_witness :
    ∃ rows rows',
      sum_period_df ⟨["rain"], []⟩ ⟨2020, 6, 1⟩ ⟨2020, 6, 10⟩ 1 "rain" = .ok rows ∧
      avg_period_df ⟨["rain"], []⟩ ⟨2020, 6, 1⟩ ⟨2020, 6, 10⟩ 1 "rain" = .ok rows' ∧
      ∀ y ∈ lookback_years ⟨2020, 6, 1⟩ 1, ∀ left right,
        period_window ⟨2020, 6, 1⟩ ⟨2020, 6, 10⟩ y = .ok (left, right) →
        window_rows ⟨["rain"], []⟩ left right = [] →
        ((y, some 0) ∈ rows ∧ (y, none) ∈ rows') := by
  refine empty_window_value ⟨["rain"], []⟩ ⟨2020, 6, 1⟩ ⟨2020, 6, 10⟩ 1 "rain" 0 rfl ?_
  intro y hy
  have hy1 : y = 2019 := by
    have h1 := mem_lookback_years.mp hy
    have h2 : (⟨2020, 6, 1⟩ : Date).year = 2020 := rfl
    rw [h2] at h1
    omega
  subst hy1
  exact ⟨(⟨2019, 6, 1⟩, ⟨2019, 6, 10⟩), rfl⟩

/-! ## Calendar model validation -/

/-- The crossing sample term 2000-12-25 through 2001-01-05 resolves to 12
consecutive dates across the year boundary. -/
theorem listify_period_crossing_sample :
    listify_period ⟨2000, 12, 25⟩ ⟨2001, 1, 5⟩ =
      .ok [⟨2000,12,25⟩, ⟨2000,12,26⟩, ⟨2000,12,27⟩, ⟨2000,12,28⟩, ⟨2000,12,29⟩,
           ⟨2000,12,30⟩, ⟨2000,12,31⟩, ⟨2001,1,1⟩, ⟨2001,1,2⟩, ⟨2001,1,3⟩,
           ⟨2001,1,4⟩, ⟨2001,1,5⟩] := by rfl

/-- A ten-day June term resolves to ten dates. -/
theorem listify_period_ten_day_sample :
    (listify_period ⟨2000, 6, 1⟩ ⟨2000, 6, 10⟩).map List.length = .ok 10 := by rfl

/-- A leap year contains Feb 29. -/
theorem listify_period_leap_sample :
    listify_period ⟨2020, 2, 28⟩ ⟨2020, 3, 1⟩ =
      .ok [⟨2020,2,28⟩, ⟨2020,2,29⟩, ⟨2020,3,1⟩] := by rfl

/-- A non-leap year does not contain Feb 29. -/
theorem listify_period_nonleap_sample :
    listify_period ⟨2021, 2, 28⟩ ⟨2021, 3, 1⟩ =
      .ok [⟨2021,2,28⟩, ⟨2021,3,1⟩] := by rfl

/-- `date.replace(year=...)` keeps Feb 29 valid when the target year is a
leap year. -/
theorem replaceYear_leap_sample :
    Date.replaceYear ⟨2020, 2, 29⟩ 2024 = .ok ⟨2024, 2, 29⟩ := by rfl

/-- `range(start_year, end_year + 1)` produces the inclusive year list. -/
theorem natRange_sample : natRange 2000 2002 = [2000, 2001, 2002] := by rfl

/-- `range(ps.year - yrs, ps.year)` produces the lookback years. -/
theorem lookback_years_sample :
    lookback_years ⟨2020, 6, 1⟩ 3 = [2017, 2018, 2019] := by rfl
